import Mathlib

/-!
Shallow embedding of `skills/video-extraction-pipeline/scripts/video_extractor.py`
(class `VideoExtractor`).

External effects (filesystem checks, Gemini uploads, polling, generation,
sleeps, directory creation, file writes) are modelled by an explicit
environment `Env` supplying the outcome of each external call, an explicit
cache (`self.uploaded_files`, an insertion-ordered association list), and an
event trace recording every external call the Python code performs, in order.
Python exceptions are modelled by the `Outcome.err` constructor; the polling
loop in `upload_video` (a genuine `while` loop with no bound) is modelled with
an explicit fuel parameter, `Outcome.div` marking fuel exhaustion, i.e. a run
of the loop longer than the fuel.  Python truthiness of optional string
dictionary entries (`None` and `""` are falsy) is modelled by `truthy`.
-/

namespace VideoExtractor

/-- `google.genai.types.FileState` as used by the code: the tri-state
processing status of an uploaded file. -/
inductive FileState where
  | PROCESSING
  | ACTIVE
  | FAILED
deriving DecidableEq, Repr

/-- A file object returned by the Gemini Files API (`client.files.upload` /
`client.files.get`): the fields the code reads. -/
structure FileObj where
  uri : String
  mime_type : String
  name : String
  state : FileState
deriving DecidableEq, Repr

/-- A prepared video source as stored in `self.uploaded_files`: either the
ad-hoc `YouTubeVideo` object built by `create_youtube_video_object`
(fields `uri`, `mime_type = 'video/mp4'`, `name`, `is_youtube = True`) or a
Files-API object returned by `upload_video`. -/
inductive PreparedObj where
  | youtube (uri : String) (name : String)
  | uploaded (f : FileObj)
deriving DecidableEq, Repr

/-- `.uri` field access, defined on both shapes exactly as the Python
attribute lookup behaves. -/
def PreparedObj.uri : PreparedObj → String
  | .youtube u _ => u
  | .uploaded f => f.uri

/-- `.mime_type` field access (`YouTubeVideo.mime_type` is the literal
`'video/mp4'`). -/
def PreparedObj.mime_type : PreparedObj → String
  | .youtube _ _ => "video/mp4"
  | .uploaded f => f.mime_type

/-- One external call performed by the code, recorded in order.
`statCheck` is `Path(video_path).exists()`, `upload` is
`client.files.upload`, `pollSleep` is the `time.sleep(2)` inside the
processing-poll loop, `filesGet` is `client.files.get`, `generate` is
`client.models.generate_content`, `mkdirParents` is
`output_file.parent.mkdir(parents=True, exist_ok=True)`, `write` is the
`open(..., 'w').write(full_content)`, and `rateLimitSleep` is the
`time.sleep(self.config.get('rate_limit_delay', 2))` between batch jobs. -/
inductive Event where
  | statCheck (path : String)
  | upload (path : String)
  | pollSleep (seconds : Nat)
  | filesGet (name : String)
  | generate (uri : String)
  | mkdirParents (dir : String)
  | write (path : String) (content : String)
  | rateLimitSleep (seconds : Nat)
deriving DecidableEq, Repr

/-- The Python exceptions the modelled code can raise.
`missingOutputKey` is the `KeyError` from `video_config['output']`;
`missingSource` is the `ValueError` from the neither-source check in
`process_video`; `videoFileNotFound` is the `FileNotFoundError` in
`upload_video`; `processingFailed` is the `Exception('Video processing
failed...')`; `emptyResponse` is the `Exception('Empty response from
Gemini')`; `serviceError` is any exception raised by
`generate_content`; `writeError` is an `OSError` from the output write. -/
inductive Err where
  | missingOutputKey
  | missingSource
  | videoFileNotFound (path : String)
  | processingFailed
  | emptyResponse
  | serviceError
  | writeError
deriving DecidableEq, Repr

/-- The spec's `ConfigError` class: rejections caused by the content of the
job's configuration entry (a missing `output` key, or neither `youtube_url`
nor `path` set), as opposed to service/filesystem failures. -/
def Err.isConfigClass : Err → Bool
  | .missingOutputKey => true
  | .missingSource => true
  | _ => false

/-- Result of one `client.models.generate_content` call: either the call
raises, or it returns a response whose `.text` is the given string
(`""` standing for an empty/absent text, which Python treats as falsy). -/
inductive GenOutcome where
  | raised
  | text (t : String)
deriving DecidableEq, Repr

/-- `self.uploaded_files`: a dictionary from source identity (local path or
YouTube URL) to the prepared object; most recent insertion first. -/
abbrev Cache := List (String × PreparedObj)

/-- The external world: what each external call would return.
`fileState name i` is the `.state` the service reports for uploaded file
`name` on its `i`-th observation (`i = 0` is the state on the upload
response itself, `i ≥ 1` the state returned by the `i`-th `files.get`).
`today` is `datetime.now().strftime('%Y-%m-%d')`. -/
structure Env where
  fsExists : String → Bool
  uploadName : String → String
  uploadUri : String → String
  fileState : String → Nat → FileState
  generate : String → String → String → GenOutcome
  writeOk : String → Bool
  today : String

/-- Result of running a piece of the code: normal return value, raised
exception, or fuel exhaustion of the (unbounded) polling loop.  Each
constructor carries the cache after the run and the list of external calls
the run performed. -/
inductive Outcome (α : Type) where
  | ok (a : α) (c : Cache) (evs : List Event)
  | err (e : Err) (c : Cache) (evs : List Event)
  | div
deriving DecidableEq, Repr

/-- One entry of `config['videos']`, with exactly the keys the code reads
(`video_config.get(...)` on a missing key gives `none`).  The code also
reads a `filename` key in `_generate_metadata_header`, so it is a field
here even though the documented config schema never sets it. -/
structure Job where
  id : Option String
  title : Option String
  «section» : Option String
  path : Option String
  youtube_url : Option String
  filename : Option String
  output : Option String
deriving DecidableEq, Repr

/-- The loaded YAML configuration, with exactly the keys the code reads;
`none` models a missing key, read back through `.get` defaults. -/
structure Config where
  model : Option String
  rate_limit_delay : Option Nat
  prompt_template : Option String
  course_context : Option String
  output_format : Option String
  videos : Option (List Job)
deriving DecidableEq, Repr

/-- Python truthiness of an optional string: `None` and `''` are falsy. -/
def truthy : Option String → Bool
  | some s => !(s == "")
  | none => false

/-- `'a' if present-and-truthy else 'b'` on optional strings: the Python
expression `a or b`. -/
def pyOr (a b : Option String) : Option String :=
  if truthy a then a else b

/-- Python `\w` (ASCII range) or `-`, the character class `[\w-]` used by
the YouTube URL patterns. -/
def isWordChar (c : Char) : Bool :=
  c.isAlphanum || c == '_' || c == '-'

/-- `re.match(pattern, url)` for the tail `[\w-]+` of each pattern:
`re.match` anchors at the start only, so after the fixed part it suffices
that the next character is in the class. -/
def matchIdSuffix : List Char → Bool
  | [] => false
  | c :: _ => isWordChar c

/-- The fixed body of one pattern followed by `[\w-]+`, prefix-matched
against the remaining characters. -/
def matchBody (body : String) (s : List Char) : Bool :=
  body.data.isPrefixOf s && matchIdSuffix (s.drop body.data.length)

/-- `VideoExtractor._is_youtube_url`.  Each of the three regexes is
`(?:https?://)?(?:www\.)?` followed by a fixed body and `[\w-]+`, matched
with `re.match` (prefix match).  Consuming the optional scheme and the
optional `www.` greedily is equivalent to the regex here because no fixed
body begins with `h` or `w`, so backtracking over the optional groups can
never turn a failure into a success. -/
def _is_youtube_url (url : String) : Bool :=
  let l0 := url.data
  let l1 := if ("https://".data).isPrefixOf l0 then l0.drop 8
            else if ("http://".data).isPrefixOf l0 then l0.drop 7
            else l0
  let l2 := if ("www.".data).isPrefixOf l1 then l1.drop 4 else l1
  matchBody "youtube.com/watch?v=" l2 || matchBody "youtu.be/" l2
    || matchBody "youtube.com/embed/" l2

/-- `VideoExtractor.create_youtube_video_object`: returns the cached object
for the URL if present, otherwise builds a `YouTubeVideo` (whose `name` is
`display_name or youtube_url`) and caches it.  Performs no external call
and never raises. -/
def create_youtube_video_object (c : Cache) (youtube_url : String)
    (display_name : Option String) : Outcome PreparedObj :=
  match List.lookup youtube_url c with
  | some v => .ok v c []
  | none =>
    let video_obj := PreparedObj.youtube youtube_url
      (match display_name with
       | some d => if d == "" then youtube_url else d
       | none => youtube_url)
    .ok video_obj ((youtube_url, video_obj) :: c) []

/-- The `while video_file_obj.state == FileState.PROCESSING` loop of
`upload_video`: starting at observation `i`, returns the observation index
at which the state is first not `PROCESSING`, together with the external
calls made (one `time.sleep(2)` and one `files.get` per iteration), or
`none` if the fuel runs out first. -/
def pollWait (name : String) (s : Nat → FileState) :
    Nat → Nat → Option (Nat × List Event)
  | 0, _ => none
  | fuel + 1, i =>
    if s i = FileState.PROCESSING then
      match pollWait name s fuel (i + 1) with
      | some (n, evs) => some (n, Event.pollSleep 2 :: Event.filesGet name :: evs)
      | none => none
    else
      some (i, [])

/-- `VideoExtractor.upload_video`: checks `Path(video_path).exists()` first
(raising `FileNotFoundError` if not), then consults the cache, and only on
a miss uploads the file and polls its processing state every 2 seconds
until it leaves `PROCESSING`; a `FAILED` final state raises, otherwise the
file object is cached and returned. -/
def upload_video (env : Env) (fuel : Nat) (video_path : String)
    (display_name : Option String) (c : Cache) : Outcome PreparedObj :=
  if env.fsExists video_path then
    match List.lookup video_path c with
    | some v => .ok v c [.statCheck video_path]
    | none =>
      let name := env.uploadName video_path
      match pollWait name (env.fileState name) fuel 0 with
      | none => .div
      | some (n, pollEvs) =>
        let evs := Event.statCheck video_path :: Event.upload video_path :: pollEvs
        if env.fileState name n = FileState.FAILED then
          .err .processingFailed c evs
        else
          let obj := PreparedObj.uploaded
            { uri := env.uploadUri video_path, mime_type := "video/mp4",
              name := name, state := env.fileState name n }
          .ok obj ((video_path, obj) :: c) evs
  else
    .err (.videoFileNotFound video_path) c [.statCheck video_path]

/-- Splits a character list at the first occurrence of the (nonempty)
pattern: the part before the occurrence and the part after it. -/
def splitOnFirst (pat : List Char) : List Char → Option (List Char × List Char)
  | [] => none
  | c :: rest =>
    if pat.isPrefixOf (c :: rest) then some ([], (c :: rest).drop pat.length)
    else
      match splitOnFirst pat rest with
      | some (pre, post) => some (c :: pre, post)
      | none => none

/-- Replaces the occurrences of a nonempty pattern left to right without
rescanning replacements, as Python `str.replace` does; the fuel argument
bounds the number of replacements and is always supplied large enough. -/
def replaceAllFuel (pat rep : List Char) : Nat → List Char → List Char
  | 0, l => l
  | fuel + 1, l =>
    match splitOnFirst pat l with
    | none => l
    | some (pre, post) => pre ++ rep ++ replaceAllFuel pat rep fuel post

/-- Python `s.replace(pat, rep)` for a nonempty pattern. -/
def pyReplace (s pat rep : String) : String :=
  String.mk (replaceAllFuel pat.data rep.data (s.data.length + 1) s.data)

/-- Placeholder substitution for `template.format(title=..., section=...,
course_context=..., output_format=...)`.  This models Python `str.format`
on templates that use the four named placeholders without brace escapes,
which is the only form the pipeline's templates take; no claim depends on
`str.format` edge cases. -/
def pyFormat (template title sec ctx outfmt : String) : String :=
  pyReplace (pyReplace (pyReplace (pyReplace template "{title}" title)
    "{section}" sec) "{course_context}" ctx) "{output_format}" outfmt

/-- `VideoExtractor._build_extraction_prompt`. -/
def _build_extraction_prompt (cfg : Config) (video_metadata : Job) : String :=
  pyFormat (cfg.prompt_template.getD "")
    (video_metadata.title.getD "Unknown")
    (video_metadata.«section».getD "Unknown")
    (cfg.course_context.getD "")
    (cfg.output_format.getD "")

/-- `VideoExtractor.extract_content`: builds the prompt, calls
`generate_content` (one external call), raises on a service exception or an
empty/absent response text, and otherwise returns the text. -/
def extract_content (env : Env) (cfg : Config) (video_file_obj : PreparedObj)
    (video_metadata : Job) (c : Cache) : Outcome String :=
  let prompt := _build_extraction_prompt cfg video_metadata
  match env.generate (cfg.model.getD "gemini-1.5-pro") video_file_obj.uri prompt with
  | .raised => .err .serviceError c [.generate video_file_obj.uri]
  | .text t =>
    if t == "" then .err .emptyResponse c [.generate video_file_obj.uri]
    else .ok t c [.generate video_file_obj.uri]

/-- `Path(output_path).parent`, for slash-separated paths. -/
def parentDir (p : String) : String :=
  let parts := p.splitOn "/"
  if parts.length ≤ 1 then "." else String.intercalate "/" parts.dropLast

/-- `VideoExtractor._generate_metadata_header`: the f-string header.  The
source line's label and value are chosen by the truthiness of the job's
`youtube_url`; note the fallback reads the `filename` key (not `path`). -/
def _generate_metadata_header (today : String) (video_metadata : Job) : String :=
  let source_info : String :=
    if truthy video_metadata.youtube_url then video_metadata.youtube_url.getD ""
    else video_metadata.filename.getD "Unknown"
  let source_label : String :=
    if truthy video_metadata.youtube_url then "YouTube URL" else "Video File"
  "# " ++ video_metadata.title.getD "Untitled" ++
  "\n\n**Section:** " ++ video_metadata.«section».getD "Unknown Section" ++
  "\n**Extracted:** " ++ today ++
  "\n**" ++ source_label ++ ":** " ++ source_info ++
  "\n\n---\n"

/-- The `full_content` string assembled by `save_markdown`:
header, blank line, extracted content. -/
def full_doc (today : String) (video_metadata : Job) (content : String) : String :=
  _generate_metadata_header today video_metadata ++ "\n\n" ++ content

/-- `VideoExtractor.save_markdown`: creates the parent directory
(`parents=True, exist_ok=True`), then writes the header + blank line +
content to the output path, truncating any existing file (`open(..., 'w')`).
`env.writeOk` models whether the write call itself raises. -/
def save_markdown (env : Env) (content : String) (output_path : String)
    (video_metadata : Job) (c : Cache) : Outcome Unit :=
  let full_content := full_doc env.today video_metadata content
  if env.writeOk output_path then
    .ok () c [.mkdirParents (parentDir output_path), .write output_path full_content]
  else
    .err .writeError c [.mkdirParents (parentDir output_path)]

/-- `VideoExtractor.process_video`.  Reads `video_config['output']` (a
`KeyError` when absent), then raises `ValueError` when neither
`youtube_url` nor `path` is truthy — both raises are outside the `try`.
Inside the `try`, prepares the source (YouTube branch when `youtube_url`
is truthy, upload branch otherwise), extracts, and saves; any exception
from those three stages is caught and turns into a `False` return. -/
def process_video (env : Env) (fuel : Nat) (cfg : Config) (video_config : Job)
    (c : Cache) : Outcome Bool :=
  let youtube_url := video_config.youtube_url
  let video_path := video_config.path
  match video_config.output with
  | none => .err .missingOutputKey c []
  | some output_path =>
    if !truthy youtube_url && !truthy video_path then
      .err .missingSource c []
    else
      let prep : Outcome PreparedObj :=
        if truthy youtube_url then
          create_youtube_video_object c (youtube_url.getD "") video_config.title
        else
          upload_video env fuel (video_path.getD "") video_config.title c
      match prep with
      | .div => .div
      | .err _ c1 e1 => .ok false c1 e1
      | .ok obj c1 e1 =>
        match extract_content env cfg obj video_config c1 with
        | .div => .div
        | .err _ c2 e2 => .ok false c2 (e1 ++ e2)
        | .ok content c2 e2 =>
          match save_markdown env content output_path video_config c2 with
          | .div => .div
          | .err _ c3 e3 => .ok false c3 (e1 ++ e2 ++ e3)
          | .ok _ c3 e3 => .ok true c3 (e1 ++ e2 ++ e3)

/-- One record of `results['errors']`: `{'video': ..., 'source': ...}`.
Both values are optional strings in Python (`None` possible). -/
structure ErrEntry where
  video : Option String
  source : Option String
deriving DecidableEq, Repr

/-- The failure record appended for a failed job:
`video = video_config.get('title', video_source)` and
`source = video_source` where
`video_source = video_config.get('youtube_url') or video_config.get('path')`. -/
def mkEntry (v : Job) : ErrEntry :=
  { video := match v.title with
             | some t => some t
             | none => pyOr v.youtube_url v.path
  , source := pyOr v.youtube_url v.path }

/-- The summary dictionary returned by `process_batch`.  The early return
for an empty job list is `{'total': 0, 'success': 0, 'failed': 0}` with no
`errors` key at all, modelled by `errors = none`. -/
structure Summary where
  total : Nat
  success : Nat
  failed : Nat
  errors : Option (List ErrEntry)
deriving DecidableEq, Repr

/-- Python `v.get(key) in video_list` for a list of strings: a missing key
(`None`) is never a member. -/
def optMem (o : Option String) (l : List String) : Bool :=
  match o with
  | some s => l.contains s
  | none => false

/-- The filter predicate of `process_batch`: exact membership of the job's
`path`, `youtube_url`, or `id` in the requested list. -/
def jobMatches (video_list : List String) (v : Job) : Bool :=
  optMem v.path video_list || optMem v.youtube_url video_list
    || optMem v.id video_list

/-- The job list `process_batch` iterates: `config.get('videos', [])`,
filtered only when `video_list` is truthy (a `None` or empty list applies
no filter — Python `if video_list:`). -/
def resolveVideos (cfg : Config) (video_list : Option (List String)) : List Job :=
  let videos := cfg.videos.getD []
  match video_list with
  | none => videos
  | some l => if l.isEmpty then videos else videos.filter (jobMatches l)

/-- The `for i, video_config in enumerate(videos, 1)` loop of
`process_batch`, threading the `(success, failed, errors)` accumulator.
After each job except the last (`if i < len(videos)`), the code sleeps for
`config.get('rate_limit_delay', 2)`.  An exception escaping
`process_video` propagates and aborts the loop. -/
def batchLoop (env : Env) (fuel : Nat) (cfg : Config) :
    List Job → Cache → Nat × Nat × List ErrEntry →
      Outcome (Nat × Nat × List ErrEntry)
  | [], c, acc => .ok acc c []
  | v :: rest, c, (s, f, errs) =>
    match process_video env fuel cfg v c with
    | .div => .div
    | .err e c1 e1 => .err e c1 e1
    | .ok b c1 e1 =>
      let acc1 := if b then (s + 1, f, errs) else (s, f + 1, errs ++ [mkEntry v])
      let sleepEvs :=
        if rest.isEmpty then [] else [Event.rateLimitSleep (cfg.rate_limit_delay.getD 2)]
      match batchLoop env fuel cfg rest c1 acc1 with
      | .div => .div
      | .err e c2 e2 => .err e c2 (e1 ++ sleepEvs ++ e2)
      | .ok acc2 c2 e2 => .ok acc2 c2 (e1 ++ sleepEvs ++ e2)

/-- `VideoExtractor.process_batch`: resolves the (optionally filtered) job
list, returns the `{'total': 0, 'success': 0, 'failed': 0}` summary when it
is empty, and otherwise runs the loop and packages the counts, with
`total = len(videos)` fixed up front. -/
def process_batch (env : Env) (fuel : Nat) (cfg : Config)
    (video_list : Option (List String)) (c : Cache) : Outcome Summary :=
  let videos := resolveVideos cfg video_list
  if videos.isEmpty then
    .ok { total := 0, success := 0, failed := 0, errors := none } c []
  else
    match batchLoop env fuel cfg videos c (0, 0, []) with
    | .div => .div
    | .err e c1 e1 => .err e c1 e1
    | .ok (s, f, errs) c1 e1 =>
      .ok { total := videos.length, success := s, failed := f,
            errors := some errs } c1 e1

/-- Recognizer for the inter-job rate-limit sleep event. -/
def isRateSleepEv : Event → Bool
  | .rateLimitSleep _ => true
  | _ => false

/-- Recognizer for the `client.files.upload` event. -/
def isUploadEv : Event → Bool
  | .upload _ => true
  | _ => false

/-- Recognizer for the `Path(...).exists()` event. -/
def isStatCheckEv : Event → Bool
  | .statCheck _ => true
  | _ => false

/-- Recognizer for the 2-second poll sleep event. -/
def isPollSleepEv : Event → Bool
  | .pollSleep _ => true
  | _ => false

/-- The sequence of booleans `process_video` returns along a batch run over
the given jobs, threading the cache exactly as `batchLoop` does; `none`
when some job raises out of `process_video` or the polling fuel runs out. -/
def jobResults (env : Env) (fuel : Nat) (cfg : Config) :
    List Job → Cache → Option (List Bool)
  | [], _ => some []
  | v :: rest, c =>
    match process_video env fuel cfg v c with
    | .ok b c1 _ => (jobResults env fuel cfg rest c1).map (b :: ·)
    | _ => none

/-- The failure records accumulated for the jobs whose per-job result was
`false`, in job order. -/
def failEntries : List Job → List Bool → List ErrEntry
  | v :: vs, b :: bs =>
    if b then failEntries vs bs else mkEntry v :: failEntries vs bs
  | _, _ => []

/-- The external calls of `n` iterations of the processing-poll loop:
`n` sleeps of 2 seconds, each followed by a `files.get`. -/
def pollTrace (name : String) : Nat → List Event
  | 0 => []
  | k + 1 => Event.pollSleep 2 :: Event.filesGet name :: pollTrace name k

/-- Interpretation of the write events of a trace against a filesystem
(mapping each path to the contents of the file there, if any): each
`write` replaces whatever was at its path. -/
def applyWrites (fs : String → Option String) : List Event → String → Option String
  | [] => fs
  | e :: rest =>
    applyWrites
      (match e with
       | .write p content => fun q => if q = p then some content else fs q
       | _ => fs) rest

/-- Interpretation of the `mkdirParents` events of a trace: the set of
directories guaranteed to exist afterwards. -/
def applyDirs (ds : List String) : List Event → List String
  | [] => ds
  | e :: rest =>
    applyDirs
      (match e with
       | .mkdirParents d => d :: ds
       | _ => ds) rest

/-- `sub` occurs contiguously inside `s`. -/
def strContains (s sub : String) : Prop := sub.data <:+: s.data

instance (s sub : String) : Decidable (strContains s sub) :=
  inferInstanceAs (Decidable (sub.data <:+: s.data))

/-! Concrete fixtures used by witnesses and counterexamples. -/

/-- A generation service that always answers with the text `BODY`. -/
def okGen : String → String → String → GenOutcome :=
  fun _ _ _ => GenOutcome.text "BODY"

/-- Concrete environment: exactly one local file exists
(`videos/local1.mp4`), uploads get the service name `files/abc`, an
uploaded file is `PROCESSING` on its first two observations and `ACTIVE`
from the third, generation always answers `BODY`, and writes succeed. -/
def envW : Env :=
  { fsExists := fun p => p == "videos/local1.mp4"
  , uploadName := fun _ => "files/abc"
  , uploadUri := fun p => "uri://" ++ p
  , fileState := fun _ i => if i < 2 then .PROCESSING else .ACTIVE
  , generate := okGen
  , writeOk := fun _ => true
  , today := "2026-10-12" }

/-- A YouTube job that succeeds under `envW`. -/
def jobY1 : Job :=
  { id := some "y1", title := some "Intro", «section» := some "S1",
    path := none, youtube_url := some "https://youtu.be/abc123",
    filename := none, output := some "out/y1.md" }

/-- A local-file job whose path does not exist under `envW`: its
preparation stage fails. -/
def jobBad : Job :=
  { id := some "b", title := some "Broken", «section» := none,
    path := some "videos/missing.mp4", youtube_url := none,
    filename := none, output := some "out/b.md" }

/-- A second YouTube job that succeeds under `envW`. -/
def jobY2 : Job :=
  { id := some "y2", title := some "Outro", «section» := some "S2",
    path := none, youtube_url := some "https://youtu.be/zzz999",
    filename := none, output := some "out/y2.md" }

/-- A job with neither `youtube_url` nor `path`. -/
def jobNoSrc : Job :=
  { id := some "n", title := some "NoSource", «section» := none,
    path := none, youtube_url := none, filename := none,
    output := some "out/n.md" }

/-- A remote job whose URL is not a YouTube URL. -/
def jobVimeo : Job :=
  { id := some "v", title := some "Vimeo", «section» := none,
    path := none, youtube_url := some "https://vimeo.com/abc123",
    filename := none, output := some "out/v.md" }

/-- A job that sets both a local path and a remote URL. -/
def jobBoth : Job :=
  { id := some "both", title := some "Both", «section» := some "SB",
    path := some "videos/local1.mp4",
    youtube_url := some "https://youtu.be/abc123",
    filename := none, output := some "out/both.md" }

/-- The document round-trip job of the spec:
`title="T"`, `section="S"`, `remote_url="https://youtu.be/abc123"`. -/
def jobT : Job :=
  { id := some "t", title := some "T", «section» := some "S",
    path := none, youtube_url := some "https://youtu.be/abc123",
    filename := none, output := some "docs/out.md" }

/-- Concrete configuration: three jobs, of which the middle one fails
under `envW`; rate-limit delay 3 seconds. -/
def cfgW : Config :=
  { model := some "gemini-1.5-pro", rate_limit_delay := some 3,
    prompt_template := some "Extract {title} / {section} / {course_context} / {output_format}",
    course_context := some "CTX", output_format := some "OF",
    videos := some [jobY1, jobBad, jobY2] }

/-- A configuration with no `videos` key at all. -/
def cfgEmpty : Config :=
  { model := none, rate_limit_delay := none, prompt_template := none,
    course_context := none, output_format := none, videos := none }

/-- Five-job configuration for the filtering witness: the filter
`["y2", "videos/local1.mp4"]` matches exactly two of them. -/
def cfgF : Config :=
  { model := none, rate_limit_delay := none, prompt_template := none,
    course_context := none, output_format := none,
    videos := some
      [ jobY1
      , { jobBad with id := some "b1" }
      , { jobY2 with id := some "y2" }
      , { jobBoth with youtube_url := none, id := some "loc" }
      , jobNoSrc ] }

/-- The file object `upload_video` returns when the `n`-th observation of
the uploaded file's state is the first one that is not `PROCESSING`. -/
def uploadedObjOf (env : Env) (p : String) (n : Nat) : PreparedObj :=
  PreparedObj.uploaded
    { uri := env.uploadUri p, mime_type := "video/mp4",
      name := env.uploadName p, state := env.fileState (env.uploadName p) n }

/-- `envW` after the one local file has been deleted. -/
def envGone : Env := { envW with fsExists := fun _ => false }

/-- The object `upload_video` produces for `videos/local1.mp4` under `envW`. -/
def uploadObjW : PreparedObj :=
  PreparedObj.uploaded
    { uri := "uri://videos/local1.mp4", mime_type := "video/mp4",
      name := "files/abc", state := .ACTIVE }

/-- The cache after uploading `videos/local1.mp4` under `envW`. -/
def cacheW : Cache := [("videos/local1.mp4", uploadObjW)]

/-- The `YouTubeVideo` object built for `https://youtu.be/abc123` with no
display name. -/
def objY : PreparedObj :=
  PreparedObj.youtube "https://youtu.be/abc123" "https://youtu.be/abc123"

/-- The cache after preparing `https://youtu.be/abc123` from empty. -/
def cacheY : Cache := [("https://youtu.be/abc123", objY)]

/-- The external calls recorded by an outcome (none for fuel exhaustion). -/
def eventsOf : Outcome α → List Event
  | .ok _ _ evs => evs
  | .err _ _ evs => evs
  | .div => []

/-! Helper lemmas. -/

theorem strContains_intro (s t x y : String) (h : s = x ++ t ++ y) :
    strContains s t := by
  subst h
  exact ⟨x.data, y.data, by simp [String.data_append]⟩

theorem strContains_intro_right (s t x : String) (h : s = x ++ t) :
    strContains s t := by
  subst h
  exact ⟨x.data, [], by simp [String.data_append]⟩

theorem pollTrace_countP (name : String) :
    ∀ n, (pollTrace name n).countP isPollSleepEv = n := by
  intro n
  induction n with
  | zero => rfl
  | succ k ih => simp [pollTrace, List.countP_cons, isPollSleepEv, ih]

theorem pollTrace_mem (name : String) :
    ∀ n, ∀ e ∈ pollTrace name n,
      e = Event.pollSleep 2 ∨ e = Event.filesGet name := by
  intro n
  induction n with
  | zero => intro e he; simp [pollTrace] at he
  | succ k ih =>
    intro e he
    simp only [pollTrace, List.mem_cons] at he
    rcases he with h | h | h
    · exact Or.inl h
    · exact Or.inr h
    · exact ih e h

theorem pollTrace_rate (name : String) :
    ∀ n, (pollTrace name n).countP isRateSleepEv = 0 := by
  intro n
  induction n with
  | zero => rfl
  | succ k ih => simp [pollTrace, List.countP_cons, isRateSleepEv, ih]

theorem pollWait_spec (name : String) (s : Nat → FileState) :
    ∀ (n fuel i : Nat), (∀ j, j < n → s (i + j) = FileState.PROCESSING) →
      s (i + n) ≠ FileState.PROCESSING → n < fuel →
      pollWait name s fuel i = some (i + n, pollTrace name n) := by
  intro n
  induction n with
  | zero =>
    intro fuel i hall hn hf
    match fuel, hf with
    | fuel + 1, _ =>
      rw [Nat.add_zero] at hn
      simp [pollWait, hn, pollTrace]
  | succ k ih =>
    intro fuel i hall hn hf
    match fuel, hf with
    | fuel + 1, hf =>
      have h0 : s i = FileState.PROCESSING := by
        have h := hall 0 (Nat.succ_pos k)
        rwa [Nat.add_zero] at h
      have hrec : pollWait name s fuel (i + 1) = some ((i + 1) + k, pollTrace name k) := by
        apply ih
        · intro j hj
          have h := hall (j + 1) (by omega)
          rw [show i + (j + 1) = (i + 1) + j by omega] at h
          exact h
        · rw [show (i + 1) + k = i + (k + 1) by omega]
          exact hn
        · omega
      simp [pollWait, h0, hrec, pollTrace]
      omega

theorem create_youtube_ok (c : Cache) (url : String) (d : Option String) :
    ∃ v c', create_youtube_video_object c url d = .ok v c' [] := by
  unfold create_youtube_video_object
  cases List.lookup url c <;> simp

theorem create_youtube_cached (c : Cache) (url : String) (d : Option String)
    (v : PreparedObj) (c1 : Cache) (evs : List Event)
    (h : create_youtube_video_object c url d = .ok v c1 evs) :
    List.lookup url c1 = some v := by
  unfold create_youtube_video_object at h
  cases hl : List.lookup url c <;> rw [hl] at h <;>
    simp only [Outcome.ok.injEq] at h
  · obtain ⟨hv, hc, -⟩ := h
    subst hv; subst hc
    simp [List.lookup]
  · obtain ⟨hv, hc, -⟩ := h
    subst hv; subst hc
    exact hl

theorem upload_cached (env : Env) (fuel : Nat) (p : String) (d : Option String)
    (c : Cache) (v : PreparedObj) (c1 : Cache) (evs : List Event)
    (h : upload_video env fuel p d c = .ok v c1 evs) :
    List.lookup p c1 = some v := by
  unfold upload_video at h
  split at h
  · split at h
    · rename_i w hw
      cases h
      exact hw
    · simp only [] at h
      split at h
      · cases h
      · split at h
        · cases h
        · cases h
          simp [List.lookup]
  · cases h

theorem create_youtube_no_rate (c : Cache) (url : String) (d : Option String) :
    (eventsOf (create_youtube_video_object c url d)).countP isRateSleepEv = 0 := by
  unfold create_youtube_video_object
  split <;> rfl

theorem pollWait_no_rate (name : String) (s : Nat → FileState) :
    ∀ (fuel i n : Nat) (evs : List Event),
      pollWait name s fuel i = some (n, evs) → evs.countP isRateSleepEv = 0 := by
  intro fuel
  induction fuel with
  | zero => intro i n evs h; cases h
  | succ k ih =>
    intro i n evs h
    unfold pollWait at h
    by_cases hsi : s i = FileState.PROCESSING
    · rw [if_pos hsi] at h
      cases hrec : pollWait name s k (i + 1) with
      | none => rw [hrec] at h; cases h
      | some pr =>
        obtain ⟨n1, evs1⟩ := pr
        rw [hrec] at h
        cases h
        simpa [List.countP_cons, isRateSleepEv] using ih (i + 1) _ _ hrec
    · rw [if_neg hsi] at h
      cases h
      rfl

theorem upload_no_rate (env : Env) (fuel : Nat) (p : String) (d : Option String)
    (c : Cache) :
    (eventsOf (upload_video env fuel p d c)).countP isRateSleepEv = 0 := by
  unfold upload_video
  split
  · split
    · rfl
    · simp only []
      split
      · rfl
      · rename_i n pollEvs hpw
        have h0 := pollWait_no_rate (env.uploadName p) (env.fileState (env.uploadName p))
          fuel 0 n pollEvs hpw
        split <;> simp [eventsOf, List.countP_cons, isRateSleepEv, h0]
  · rfl

theorem extract_no_rate (env : Env) (cfg : Config) (obj : PreparedObj)
    (j : Job) (c : Cache) :
    (eventsOf (extract_content env cfg obj j c)).countP isRateSleepEv = 0 := by
  unfold extract_content
  simp only []
  split
  · rfl
  · split <;> rfl

theorem save_no_rate (env : Env) (content p : String) (j : Job) (c : Cache) :
    (eventsOf (save_markdown env content p j c)).countP isRateSleepEv = 0 := by
  unfold save_markdown
  split <;> rfl

theorem prep_no_rate (env : Env) (fuel : Nat) (j : Job) (c : Cache) :
    (eventsOf (if truthy j.youtube_url then
        create_youtube_video_object c (j.youtube_url.getD "") j.title
      else
        upload_video env fuel (j.path.getD "") j.title c)).countP isRateSleepEv = 0 := by
  split
  · exact create_youtube_no_rate c (j.youtube_url.getD "") j.title
  · exact upload_no_rate env fuel (j.path.getD "") j.title c

theorem process_video_no_rate (env : Env) (fuel : Nat) (cfg : Config) (j : Job)
    (c : Cache) :
    (eventsOf (process_video env fuel cfg j c)).countP isRateSleepEv = 0 := by
  unfold process_video
  simp only []
  split
  · rfl
  · rename_i output_path hout
    split
    · rfl
    · split
      · rfl
      · rename_i e c1 e1 heq
        have h1 := prep_no_rate env fuel j c
        rw [heq] at h1
        simpa [eventsOf] using h1
      · rename_i obj c1 e1 heq
        have h1 := prep_no_rate env fuel j c
        rw [heq] at h1
        simp only [eventsOf] at h1
        split
        · rfl
        · rename_i e c2 e2 heq2
          have h2 := extract_no_rate env cfg obj j c1
          rw [heq2] at h2
          simp only [eventsOf] at h2
          simp [eventsOf, List.countP_append, h1, h2]
        · rename_i content c2 e2 heq2
          have h2 := extract_no_rate env cfg obj j c1
          rw [heq2] at h2
          simp only [eventsOf] at h2
          split
          · rfl
          · rename_i e c3 e3 heq3
            have h3 := save_no_rate env content output_path j c2
            rw [heq3] at h3
            simp only [eventsOf] at h3
            simp [eventsOf, List.countP_append, h1, h2, h3]
          · rename_i u c3 e3 heq3
            have h3 := save_no_rate env content output_path j c2
            rw [heq3] at h3
            simp only [eventsOf] at h3
            simp [eventsOf, List.countP_append, h1, h2, h3]

theorem jobResults_length (env : Env) (fuel : Nat) (cfg : Config) :
    ∀ (jobs : List Job) (c : Cache) (bs : List Bool),
      jobResults env fuel cfg jobs c = some bs → bs.length = jobs.length := by
  intro jobs
  induction jobs with
  | nil =>
    intro c bs h
    simp [jobResults] at h
    subst h
    rfl
  | cons v rest ih =>
    intro c bs h
    unfold jobResults at h
    cases hpv : process_video env fuel cfg v c <;> simp only [hpv] at h
    · rename_i b c1 e1
      obtain ⟨bs', hrest, hb⟩ := Option.map_eq_some'.mp h
      subst hb
      simpa using ih c1 _ hrest
    · cases h
    · cases h

theorem batchLoop_spec (env : Env) (fuel : Nat) (cfg : Config) :
    ∀ (jobs : List Job) (c : Cache) (bs : List Bool) (s f : Nat)
      (errs : List ErrEntry),
      jobResults env fuel cfg jobs c = some bs →
      ∃ c' evs,
        batchLoop env fuel cfg jobs c (s, f, errs) =
          .ok (s + bs.count true, f + bs.count false, errs ++ failEntries jobs bs)
            c' evs
        ∧ evs.countP isRateSleepEv = jobs.length - 1
        ∧ (∀ e ∈ evs, isRateSleepEv e = true →
            e = Event.rateLimitSleep (cfg.rate_limit_delay.getD 2)) := by
  intro jobs
  induction jobs with
  | nil =>
    intro c bs s f errs h
    simp [jobResults] at h
    subst h
    refine ⟨c, [], ?_, rfl, by simp⟩
    simp [batchLoop, failEntries]
  | cons v rest ih =>
    intro c bs s f errs h
    unfold jobResults at h
    cases hpv : process_video env fuel cfg v c <;> simp only [hpv] at h
    case err => cases h
    case div => cases h
    case ok b c1 e1 =>
    obtain ⟨bs', hrest, hb⟩ := Option.map_eq_some'.mp h
    subst hb
    have he1 : e1.countP isRateSleepEv = 0 := by
      have h0 := process_video_no_rate env fuel cfg v c
      rw [hpv] at h0
      simpa [eventsOf] using h0
    have he1m : ∀ e ∈ e1, isRateSleepEv e = false := by
      intro e he
      have hz := List.countP_eq_zero.mp he1 e he
      simpa using hz
    have hcount : ∀ evs2 : List Event,
        (e1 ++ (if rest.isEmpty then [] else
          [Event.rateLimitSleep (cfg.rate_limit_delay.getD 2)]) ++ evs2).countP
            isRateSleepEv = evs2.countP isRateSleepEv +
              (if rest.isEmpty then 0 else 1) := by
      intro evs2
      cases hre : rest.isEmpty <;>
        simp [List.countP_append, he1, List.countP_cons, isRateSleepEv]
    have hmem : ∀ evs2 : List Event,
        (∀ e ∈ evs2, isRateSleepEv e = true →
          e = Event.rateLimitSleep (cfg.rate_limit_delay.getD 2)) →
        ∀ e ∈ e1 ++ (if rest.isEmpty then [] else
          [Event.rateLimitSleep (cfg.rate_limit_delay.getD 2)]) ++ evs2,
          isRateSleepEv e = true →
            e = Event.rateLimitSleep (cfg.rate_limit_delay.getD 2) := by
      intro evs2 hval e he hrate
      simp only [List.mem_append] at he
      rcases he with (he | he) | he
      · rw [he1m e he] at hrate
        cases hrate
      · cases hre : rest.isEmpty <;> rw [hre] at he <;> simp at he
        exact he
      · exact hval e he hrate
    have hrlen : rest.length = bs'.length := (jobResults_length env fuel cfg rest c1 bs' hrest).symm
    cases b with
    | true =>
      obtain ⟨c2, evs2, heq, hcnt, hval⟩ := ih c1 bs' (s + 1) f errs hrest
      refine ⟨c2, e1 ++ (if rest.isEmpty then [] else
        [Event.rateLimitSleep (cfg.rate_limit_delay.getD 2)]) ++ evs2, ?_, ?_, ?_⟩
      · have hct : (true :: bs').count true = bs'.count true + 1 := by
          simp [List.count_cons]
        have hcf : (true :: bs').count false = bs'.count false := by
          simp [List.count_cons]
        have hfe : failEntries (v :: rest) (true :: bs') = failEntries rest bs' := by
          simp [failEntries]
        rw [hct, hcf, hfe, show s + (bs'.count true + 1) = s + 1 + bs'.count true by omega]
        simp [batchLoop, hpv, heq]
      · rw [hcount evs2, hcnt]
        cases hre : rest.isEmpty with
        | true =>
          have : rest = [] := List.isEmpty_iff.mp hre
          subst this
          simp
        | false =>
          have : rest ≠ [] := by
            intro hnil
            subst hnil
            simp at hre
          cases rest with
          | nil => exact absurd rfl this
          | cons w ws => simp
      · exact hmem evs2 hval
    | false =>
      obtain ⟨c2, evs2, heq, hcnt, hval⟩ :=
        ih c1 bs' s (f + 1) (errs ++ [mkEntry v]) hrest
      refine ⟨c2, e1 ++ (if rest.isEmpty then [] else
        [Event.rateLimitSleep (cfg.rate_limit_delay.getD 2)]) ++ evs2, ?_, ?_, ?_⟩
      · have hct : (false :: bs').count true = bs'.count true := by
          simp [List.count_cons]
        have hcf : (false :: bs').count false = bs'.count false + 1 := by
          simp [List.count_cons]
        have hfe : failEntries (v :: rest) (false :: bs') =
            mkEntry v :: failEntries rest bs' := by
          simp [failEntries]
        have hap : errs ++ (mkEntry v :: failEntries rest bs') =
            (errs ++ [mkEntry v]) ++ failEntries rest bs' := by
          simp
        rw [hct, hcf, hfe, hap, show f + (bs'.count false + 1) = f + 1 + bs'.count false by omega]
        simp [batchLoop, hpv, heq]
      · rw [hcount evs2, hcnt]
        cases hre : rest.isEmpty with
        | true =>
          have : rest = [] := List.isEmpty_iff.mp hre
          subst this
          simp
        | false =>
          cases rest with
          | nil => simp at hre
          | cons w ws => simp
      · exact hmem evs2 hval

theorem batchLoop_inv (env : Env) (fuel : Nat) (cfg : Config) :
    ∀ (jobs : List Job) (c : Cache) (s f : Nat) (errs : List ErrEntry)
      (s' f' : Nat) (errs' : List ErrEntry) (c' : Cache) (evs : List Event),
      batchLoop env fuel cfg jobs c (s, f, errs) = .ok (s', f', errs') c' evs →
      s' + f' = s + f + jobs.length ∧ errs'.length + f = errs.length + f' := by
  intro jobs
  induction jobs with
  | nil =>
    intro c s f errs s' f' errs' c' evs h
    simp only [batchLoop, Outcome.ok.injEq, Prod.mk.injEq] at h
    obtain ⟨⟨h1, h2, h3⟩, -, -⟩ := h
    subst h1; subst h2; subst h3
    simp
  | cons v rest ih =>
    intro c s f errs s' f' errs' c' evs h
    simp only [batchLoop] at h
    cases hpv : process_video env fuel cfg v c <;> simp only [hpv] at h
    case err => cases h
    case div => cases h
    case ok b c1 e1 =>
    cases hbl : batchLoop env fuel cfg rest c1
        (if b then (s + 1, f, errs) else (s, f + 1, errs ++ [mkEntry v])) <;>
      simp only [hbl] at h
    case err => cases h
    case div => cases h
    case ok acc2 c2 evs2 =>
    obtain ⟨s2, f2, errs2⟩ := acc2
    obtain ⟨⟨h1, h2, h3⟩, h4, h5⟩ :
        (s2 = s' ∧ f2 = f' ∧ errs2 = errs') ∧ c2 = c' ∧
          e1 ++ (if rest.isEmpty then [] else
            [Event.rateLimitSleep (cfg.rate_limit_delay.getD 2)]) ++ evs2 = evs := by
      simpa [Prod.mk.injEq] using h
    subst h1; subst h2; subst h3
    cases b with
    | true =>
      obtain ⟨ha, hb⟩ := ih c1 (s + 1) f errs s2 f2 errs2 c2 evs2 (by simpa using hbl)
      constructor
      · simp only [List.length_cons]
        omega
      · omega
    | false =>
      obtain ⟨ha, hb⟩ := ih c1 s (f + 1) (errs ++ [mkEntry v]) s2 f2 errs2 c2 evs2
        (by simpa using hbl)
      constructor
      · simp only [List.length_cons]
        omega
      · simp only [List.length_append, List.length_cons, List.length_nil] at hb
        omega

theorem count_false_replicate_true (m : Nat) :
    (List.replicate m true).count false = 0 := by
  induction m with
  | zero => rfl
  | succ n ih => simp [List.replicate, List.count_cons, ih]

theorem count_true_block (k m : Nat) :
    (List.replicate k true ++ false :: List.replicate m true).count true = k + m := by
  simp [List.count_append, List.count_cons]

theorem count_false_block (k m : Nat) :
    (List.replicate k true ++ false :: List.replicate m true).count false = 1 := by
  simp [List.count_append, List.count_cons, count_false_replicate_true]

theorem failEntries_replicate_true (vs : List Job) :
    ∀ m, failEntries vs (List.replicate m true) = [] := by
  induction vs with
  | nil => intro m; cases m <;> rfl
  | cons v vs' ih =>
    intro m
    cases m with
    | zero => rfl
    | succ n => simp [List.replicate, failEntries, ih]

theorem failEntries_single (k : Nat) :
    ∀ (m : Nat) (vs : List Job), vs.length = k + 1 + m →
      ∃ jk, vs[k]? = some jk ∧
        failEntries vs (List.replicate k true ++ false :: List.replicate m true) =
          [mkEntry jk] := by
  induction k with
  | zero =>
    intro m vs hlen
    cases vs with
    | nil => simp at hlen; omega
    | cons v vs' =>
      refine ⟨v, by simp, ?_⟩
      simp [failEntries, failEntries_replicate_true]
  | succ n ih =>
    intro m vs hlen
    cases vs with
    | nil => simp at hlen; omega
    | cons v vs' =>
      obtain ⟨jk, h1, h2⟩ := ih m vs' (by simp at hlen; omega)
      refine ⟨jk, by simpa using h1, ?_⟩
      simp [List.replicate, failEntries, h2]

/-! Claim theorems. -/

set_option maxRecDepth 40000 in
/-- C2 counterexample: the URL `https://vimeo.com/abc123` is not a YouTube
URL by the code's own classifier `_is_youtube_url`, yet preparing it as a
remote source succeeds: `create_youtube_video_object` returns a ready
handle caching the Vimeo URL, and the whole job (prepare, extract, write)
completes successfully, instead of failing with an
`UnsupportedSourceError`-class rejection. -/
theorem c2_unsupported_url_counterexample :
    _is_youtube_url "https://vimeo.com/abc123" = false
  ∧ create_youtube_video_object [] "https://vimeo.com/abc123" none =
      .ok (PreparedObj.youtube "https://vimeo.com/abc123" "https://vimeo.com/abc123")
        [("https://vimeo.com/abc123",
          PreparedObj.youtube "https://vimeo.com/abc123" "https://vimeo.com/abc123")] []
  ∧ (∃ c evs, process_video envW 0 cfgW jobVimeo [] = .ok true c evs) := by
  refine ⟨by decide, by decide, ?_⟩
  exact ⟨_, _, rfl⟩

/-- C2 (amended): the classifier `_is_youtube_url` recognizes the
watch-URL, short-URL and embed-URL shapes and rejects
`https://vimeo.com/abc123`, but the remote preparer never invokes it:
`create_youtube_video_object` succeeds on every URL string, so an
unsupported remote URL is prepared silently rather than rejected. -/
theorem c2_url_classification :
    (_is_youtube_url "https://youtu.be/abc123" = true
      ∧ _is_youtube_url "https://www.youtube.com/watch?v=abc123" = true
      ∧ _is_youtube_url "https://youtube.com/embed/abc123" = true
      ∧ _is_youtube_url "https://vimeo.com/abc123" = false)
  ∧ (∀ (c : Cache) (url : String) (d : Option String),
      ∃ v c', create_youtube_video_object c url d = .ok v c' []) :=
  ⟨by decide, fun c url d => create_youtube_ok c url d⟩

/-- C3: a job with neither a truthy `youtube_url` nor a truthy `path` is
rejected by `process_video` before any external call is made (the event
trace is empty): either the `KeyError` on the missing `output` key or the
`ValueError` for the missing source, both configuration-class
rejections raised before preparation begins. -/
theorem c3_missing_source_rejected (env : Env) (fuel : Nat) (cfg : Config)
    (j : Job) (c : Cache) (hy : truthy j.youtube_url = false)
    (hp : truthy j.path = false) :
    process_video env fuel cfg j c =
      .err (match j.output with
            | none => Err.missingOutputKey
            | some _ => Err.missingSource) c []
  ∧ (match j.output with
     | none => Err.missingOutputKey
     | some _ => Err.missingSource).isConfigClass = true := by
  unfold process_video
  cases ho : j.output <;> simp [ho, hy, hp, Err.isConfigClass]

/-- C3 witness: the concrete job with an output path but no source. -/
theorem c3_missing_source_rejected_witness :
    process_video envW 0 cfgW jobNoSrc [] = .err Err.missingSource [] []
  ∧ Err.missingSource.isConfigClass = true :=
  c3_missing_source_rejected envW 0 cfgW jobNoSrc [] rfl rfl

/-- C1: over any resolved batch whose per-job results are exactly one
failure at position `k` (k successes before it, m after it, the failure
arising inside the caught stages: preparation, extraction or writing),
`process_batch` returns normally with `total = N`, `success = N - 1`,
`failed = 1`, and the failure list is exactly the `k`-th job's
title/source record; the `m` jobs after the failing one were executed and
are counted in `success` — one job's stage failure never aborts the
batch. -/
theorem c1_single_failure_isolation (env : Env) (fuel : Nat) (cfg : Config)
    (video_list : Option (List String)) (c : Cache) (k m : Nat)
    (h : jobResults env fuel cfg (resolveVideos cfg video_list) c =
      some (List.replicate k true ++ false :: List.replicate m true)) :
    ∃ jk c' evs,
      (resolveVideos cfg video_list)[k]? = some jk
      ∧ process_batch env fuel cfg video_list c =
          .ok { total := k + 1 + m, success := k + m, failed := 1,
                errors := some [mkEntry jk] } c' evs := by
  have hlen := jobResults_length env fuel cfg _ _ _ h
  have hlen2 : (resolveVideos cfg video_list).length = k + 1 + m := by
    simp [List.length_append, List.length_replicate] at hlen
    omega
  obtain ⟨jk, hjk, hfe⟩ := failEntries_single k m _ hlen2
  obtain ⟨c', evs, heq, -, -⟩ := batchLoop_spec env fuel cfg _ c _ 0 0 [] h
  refine ⟨jk, c', evs, hjk, ?_⟩
  unfold process_batch
  have hne : (resolveVideos cfg video_list).isEmpty = false := by
    cases hv : resolveVideos cfg video_list with
    | nil =>
      rw [hv] at hlen2
      simp at hlen2
      omega
    | cons a lrest => rfl
  simp only [hne, Bool.false_eq_true, if_false, heq]
  rw [count_true_block, count_false_block, hfe, hlen2]
  simp

set_option maxRecDepth 40000 in
/-- C1 witness: the three-job batch `cfgW` under `envW`, where only the
middle job (a nonexistent local file) fails. -/
theorem c1_single_failure_isolation_witness :
    ∃ jk c' evs,
      (resolveVideos cfgW none)[1]? = some jk
      ∧ process_batch envW 0 cfgW none [] =
          .ok { total := 1 + 1 + 1, success := 1 + 1, failed := 1,
                errors := some [mkEntry jk] } c' evs :=
  c1_single_failure_isolation envW 0 cfgW none [] 1 1 (by decide)

/-- C10: whenever `process_batch` returns a summary, `success + failed =
total`, a present failure list has exactly `failed` entries, the
empty-resolved-list summary is exactly `{total := 0, success := 0,
failed := 0}` with no failure list at all, and a nonempty run always
carries a (possibly empty) failure list. -/
theorem c10_summary_invariant (env : Env) (fuel : Nat) (cfg : Config)
    (video_list : Option (List String)) (c : Cache) (s : Summary)
    (c' : Cache) (evs : List Event)
    (h : process_batch env fuel cfg video_list c = .ok s c' evs) :
    s.success + s.failed = s.total
  ∧ (∀ errs, s.errors = some errs → errs.length = s.failed)
  ∧ (resolveVideos cfg video_list = [] →
      s = { total := 0, success := 0, failed := 0, errors := none })
  ∧ (resolveVideos cfg video_list ≠ [] → ∃ errs, s.errors = some errs) := by
  unfold process_batch at h
  cases hv : (resolveVideos cfg video_list).isEmpty <;> simp only [hv] at h
  · cases hbl : batchLoop env fuel cfg (resolveVideos cfg video_list) c
        (0, 0, []) <;> simp only [hbl] at h
    case err => cases h
    case div => cases h
    case ok acc c2 evs2 =>
    obtain ⟨s0, f0, errs0⟩ := acc
    cases h
    obtain ⟨h1, h2⟩ := batchLoop_inv env fuel cfg _ c 0 0 [] s0 f0 errs0 c' evs hbl
    refine ⟨by simpa using h1, ?_, ?_, ?_⟩
    · intro errs herrs
      cases herrs
      simpa using h2
    · intro hz
      rw [hz] at hv
      simp at hv
    · intro _
      exact ⟨errs0, rfl⟩
  · cases h
    refine ⟨rfl, ?_, fun _ => rfl, ?_⟩
    · intro errs herrs
      cases herrs
    · intro hne
      exact absurd (List.isEmpty_iff.mp hv) hne

/-- C10 witness: a configuration with no `videos` key resolves to the
empty job list and returns the bare zero summary. -/
theorem c10_summary_invariant_witness :
    (0 + 0 = 0 : Prop)
  ∧ (∀ errs, (none : Option (List ErrEntry)) = some errs → errs.length = 0)
  ∧ (resolveVideos cfgEmpty none = [] →
      ({ total := 0, success := 0, failed := 0, errors := none } : Summary) =
        { total := 0, success := 0, failed := 0, errors := none })
  ∧ (resolveVideos cfgEmpty none ≠ [] →
      ∃ errs, (none : Option (List ErrEntry)) = some errs) :=
  c10_summary_invariant envW 0 cfgEmpty none [] _ [] [] rfl

/-- C8: when a batch over N ≥ 1 resolved jobs completes normally, the
inter-job rate-limit sleep of `config.get('rate_limit_delay', 2)` seconds
occurs exactly N - 1 times in the run's trace, and every rate-limit sleep
in the trace is for exactly that configured number of seconds (so it
happens between consecutive jobs and never after the last). -/
theorem c8_rate_limit_pacing (env : Env) (fuel : Nat) (cfg : Config)
    (video_list : Option (List String)) (c : Cache) (bs : List Bool)
    (h : jobResults env fuel cfg (resolveVideos cfg video_list) c = some bs)
    (hne : resolveVideos cfg video_list ≠ []) :
    ∃ s c' evs,
      process_batch env fuel cfg video_list c = .ok s c' evs
      ∧ evs.countP isRateSleepEv = (resolveVideos cfg video_list).length - 1
      ∧ s.total = (resolveVideos cfg video_list).length
      ∧ (∀ e ∈ evs, isRateSleepEv e = true →
          e = Event.rateLimitSleep (cfg.rate_limit_delay.getD 2)) := by
  obtain ⟨c', evs, heq, hcnt, hval⟩ := batchLoop_spec env fuel cfg _ c bs 0 0 [] h
  have hv : (resolveVideos cfg video_list).isEmpty = false := by
    cases hres : resolveVideos cfg video_list with
    | nil => exact absurd hres hne
    | cons a lrest => rfl
  refine ⟨{ total := (resolveVideos cfg video_list).length,
            success := 0 + bs.count true, failed := 0 + bs.count false,
            errors := some ([] ++ failEntries (resolveVideos cfg video_list) bs) },
          c', evs, ?_, hcnt, rfl, hval⟩
  unfold process_batch
  simp only [hv, Bool.false_eq_true, if_false, heq]

set_option maxRecDepth 40000 in
/-- C8 witness: the three-job batch `cfgW` (rate-limit delay 3) sleeps
exactly twice between jobs. -/
theorem c8_rate_limit_pacing_witness :
    ∃ s c' evs,
      process_batch envW 0 cfgW none [] = .ok s c' evs
      ∧ evs.countP isRateSleepEv = (resolveVideos cfgW none).length - 1
      ∧ s.total = (resolveVideos cfgW none).length
      ∧ (∀ e ∈ evs, isRateSleepEv e = true →
          e = Event.rateLimitSleep (cfgW.rate_limit_delay.getD 2)) :=
  c8_rate_limit_pacing envW 0 cfgW none [] [true, false, true] (by decide)
    (by decide)

/-- C7: with a non-empty filter list, the resolved job list consists of
exactly the configured jobs whose `path`, `youtube_url` or `id` is a
member of the filter (exact set membership), in original order (a sublist
of the configured list); a filter matching no job makes `process_batch`
return the `total = 0` summary instead of raising; and a filtered run
that completes reports `total` equal to the number of matching jobs. -/
theorem c7_job_filtering (cfg : Config) (l : List String) (hl : l ≠ []) :
    (∀ v, v ∈ resolveVideos cfg (some l) ↔
        v ∈ cfg.videos.getD [] ∧ jobMatches l v = true)
  ∧ List.Sublist (resolveVideos cfg (some l)) (cfg.videos.getD [])
  ∧ (resolveVideos cfg (some l) = [] → ∀ (env : Env) (fuel : Nat) (c : Cache),
      process_batch env fuel cfg (some l) c =
        .ok { total := 0, success := 0, failed := 0, errors := none } c [])
  ∧ (∀ (env : Env) (fuel : Nat) (c : Cache) (bs : List Bool),
      jobResults env fuel cfg (resolveVideos cfg (some l)) c = some bs →
      ∃ s c' evs, process_batch env fuel cfg (some l) c = .ok s c' evs
        ∧ s.total = (resolveVideos cfg (some l)).length) := by
  have hre : resolveVideos cfg (some l) =
      (cfg.videos.getD []).filter (jobMatches l) := by
    unfold resolveVideos
    have : l.isEmpty = false := by
      cases l with
      | nil => exact absurd rfl hl
      | cons a lrest => rfl
    simp [this]
  refine ⟨?_, ?_, ?_, ?_⟩
  · intro v
    rw [hre]
    exact List.mem_filter
  · rw [hre]
    exact List.filter_sublist _
  · intro hz env fuel c
    unfold process_batch
    simp [hz]
  · intro env fuel c bs h
    by_cases hz : resolveVideos cfg (some l) = []
    · refine ⟨{ total := 0, success := 0, failed := 0, errors := none },
              c, [], ?_, ?_⟩
      · unfold process_batch
        simp [hz]
      · simp [hz]
    · obtain ⟨c', evs, heq, -, -⟩ := batchLoop_spec env fuel cfg _ c bs 0 0 [] h
      have hv : (resolveVideos cfg (some l)).isEmpty = false := by
        cases hres : resolveVideos cfg (some l) with
        | nil => exact absurd hres hz
        | cons a lrest => rfl
      refine ⟨{ total := (resolveVideos cfg (some l)).length,
                success := 0 + bs.count true, failed := 0 + bs.count false,
                errors := some ([] ++ failEntries (resolveVideos cfg (some l)) bs) },
              c', evs, ?_, rfl⟩
      unfold process_batch
      simp only [hv, Bool.false_eq_true, if_false, heq]

set_option maxRecDepth 40000 in
/-- C7 witness: in the five-job configuration `cfgF`, the filter
`["y2", "videos/local1.mp4"]` matches exactly two jobs. -/
theorem c7_job_filtering_witness :
    (∀ v, v ∈ resolveVideos cfgF (some ["y2", "videos/local1.mp4"]) ↔
        v ∈ cfgF.videos.getD [] ∧ jobMatches ["y2", "videos/local1.mp4"] v = true)
  ∧ List.Sublist (resolveVideos cfgF (some ["y2", "videos/local1.mp4"]))
      (cfgF.videos.getD [])
  ∧ (resolveVideos cfgF (some ["y2", "videos/local1.mp4"]) = [] →
      ∀ (env : Env) (fuel : Nat) (c : Cache),
      process_batch env fuel cfgF (some ["y2", "videos/local1.mp4"]) c =
        .ok { total := 0, success := 0, failed := 0, errors := none } c [])
  ∧ (∀ (env : Env) (fuel : Nat) (c : Cache) (bs : List Bool),
      jobResults env fuel cfgF
          (resolveVideos cfgF (some ["y2", "videos/local1.mp4"])) c = some bs →
      ∃ s c' evs,
        process_batch env fuel cfgF (some ["y2", "videos/local1.mp4"]) c =
            .ok s c' evs
          ∧ s.total =
              (resolveVideos cfgF (some ["y2", "videos/local1.mp4"])).length) :=
  c7_job_filtering cfgF ["y2", "videos/local1.mp4"] (by decide)

set_option maxRecDepth 40000 in
/-- The `cfgF` filter in the C7 witness indeed selects exactly two of the
five configured jobs. -/
theorem c7_filter_selects_two :
    (resolveVideos cfgF (some ["y2", "videos/local1.mp4"])).length = 2 := by
  decide

set_option maxRecDepth 40000 in
/-- C4 counterexample: two `upload_video` calls for the same existing local
path run the existence validation (`Path(video_path).exists()`) twice —
once per call, because the check precedes the cache lookup — so the
underlying validation is not invoked "at most once"; and if the file
disappears between the calls, the second call raises `FileNotFoundError`
instead of returning the cached handle. -/
theorem c4_revalidation_counterexample :
    upload_video envW 5 "videos/local1.mp4" none [] =
      .ok uploadObjW cacheW
        [.statCheck "videos/local1.mp4", .upload "videos/local1.mp4",
         .pollSleep 2, .filesGet "files/abc", .pollSleep 2, .filesGet "files/abc"]
  ∧ upload_video envW 5 "videos/local1.mp4" none cacheW =
      .ok uploadObjW cacheW [.statCheck "videos/local1.mp4"]
  ∧ (([Event.statCheck "videos/local1.mp4", Event.upload "videos/local1.mp4",
       Event.pollSleep 2, Event.filesGet "files/abc", Event.pollSleep 2,
       Event.filesGet "files/abc"] ++
        [Event.statCheck "videos/local1.mp4"]).countP isStatCheckEv = 2)
  ∧ upload_video envGone 5 "videos/local1.mp4" none cacheW =
      .err (.videoFileNotFound "videos/local1.mp4") cacheW
        [.statCheck "videos/local1.mp4"] := by
  exact ⟨by decide, by decide, by decide, by decide⟩

/-- C4 (amended): preparing the same source identity twice transmits and
polls at most once and both calls return the same handle (hence identical
`uri`): the second remote preparation returns the cached object with no
external call at all, and the second local preparation performs only the
existence re-check (the sole event is the `statCheck`; no upload, no
polling) before returning the cached object, provided the file still
exists. -/
theorem c4_prepare_idempotent (env : Env) (fuel : Nat) :
    (∀ (c : Cache) (url : String) (d1 d2 : Option String) (v : PreparedObj)
        (c1 : Cache) (evs1 : List Event),
      create_youtube_video_object c url d1 = .ok v c1 evs1 →
      create_youtube_video_object c1 url d2 = .ok v c1 [])
  ∧ (∀ (p : String) (d1 d2 : Option String) (c : Cache) (v : PreparedObj)
        (c1 : Cache) (evs1 : List Event),
      env.fsExists p = true →
      upload_video env fuel p d1 c = .ok v c1 evs1 →
      upload_video env fuel p d2 c1 = .ok v c1 [.statCheck p]) := by
  constructor
  · intro c url d1 d2 v c1 evs1 h
    have hc := create_youtube_cached c url d1 v c1 evs1 h
    simp only [create_youtube_video_object, hc]
  · intro p d1 d2 c v c1 evs1 hfs h
    have hc := upload_cached env fuel p d1 c v c1 evs1 h
    simp [upload_video, hfs, hc]

set_option maxRecDepth 40000 in
/-- C4 witness: a second remote preparation for `https://youtu.be/abc123`
and a second local preparation for `videos/local1.mp4`, each returning the
handle cached by the corresponding first call. -/
theorem c4_prepare_idempotent_witness :
    create_youtube_video_object cacheY "https://youtu.be/abc123" none =
      .ok objY cacheY []
  ∧ upload_video envW 5 "videos/local1.mp4" none cacheW =
      .ok uploadObjW cacheW [.statCheck "videos/local1.mp4"] := by
  have h1 : create_youtube_video_object [] "https://youtu.be/abc123" none =
      .ok objY cacheY [] := by decide
  have h2 : upload_video envW 5 "videos/local1.mp4" none [] =
      .ok uploadObjW cacheW
        [Event.statCheck "videos/local1.mp4", Event.upload "videos/local1.mp4",
         Event.pollSleep 2, Event.filesGet "files/abc", Event.pollSleep 2,
         Event.filesGet "files/abc"] := by decide
  exact ⟨(c4_prepare_idempotent envW 5).1 [] "https://youtu.be/abc123" none none
      objY cacheY [] h1,
    (c4_prepare_idempotent envW 5).2 "videos/local1.mp4" none none [] uploadObjW
      cacheW _ rfl h2⟩

/-- C6: the local variant of source preparation fails with
`FileNotFoundError` when the path does not exist (after the sole existence
check); otherwise, on a cache miss, it uploads the file and polls its
processing state with a fixed 2-second sleep per iteration and no retry
bound: for every `n`, if the service reports `PROCESSING` on the first `n`
observations and something else on the `n`-th, the loop performs exactly
`n` sleeps of 2 seconds (given fuel beyond `n`) and then either raises
`ProcessingError` (state `FAILED`) or returns and caches the ready
object. -/
theorem c6_local_preparation (env : Env) (fuel : Nat) (p : String)
    (d : Option String) (c : Cache) (n : Nat) :
    (env.fsExists p = false →
      upload_video env fuel p d c =
        .err (.videoFileNotFound p) c [.statCheck p])
  ∧ (env.fsExists p = true → List.lookup p c = none →
      (∀ j, j < n → env.fileState (env.uploadName p) j = FileState.PROCESSING) →
      env.fileState (env.uploadName p) n ≠ FileState.PROCESSING →
      n < fuel →
      upload_video env fuel p d c =
        (if env.fileState (env.uploadName p) n = FileState.FAILED then
          .err .processingFailed c
            (Event.statCheck p :: Event.upload p ::
              pollTrace (env.uploadName p) n)
        else
          .ok (uploadedObjOf env p n) ((p, uploadedObjOf env p n) :: c)
            (Event.statCheck p :: Event.upload p ::
              pollTrace (env.uploadName p) n))
      ∧ (pollTrace (env.uploadName p) n).countP isPollSleepEv = n
      ∧ (∀ e ∈ pollTrace (env.uploadName p) n,
          e = Event.pollSleep 2 ∨ e = Event.filesGet (env.uploadName p))) := by
  constructor
  · intro hfs
    simp [upload_video, hfs]
  · intro hfs hlk hproc hn hfuel
    refine ⟨?_, pollTrace_countP _ n, pollTrace_mem _ n⟩
    have hpw : pollWait (env.uploadName p) (env.fileState (env.uploadName p))
        fuel 0 = some (0 + n, pollTrace (env.uploadName p) n) := by
      apply pollWait_spec
      · intro j hj
        simpa using hproc j hj
      · simpa using hn
      · omega
    rw [Nat.zero_add] at hpw
    simp only [upload_video, hfs, if_true, hlk, hpw, uploadedObjOf]

set_option maxRecDepth 40000 in
/-- C6 witness: under `envW`, a missing path fails with
`FileNotFoundError`, and the existing path `videos/local1.mp4` (whose
upload reports `PROCESSING` twice and then `ACTIVE`) is polled with
exactly two 2-second sleeps before the ready object is returned. -/
theorem c6_local_preparation_witness :
    upload_video envW 5 "videos/missing.mp4" none [] =
      .err (.videoFileNotFound "videos/missing.mp4") []
        [.statCheck "videos/missing.mp4"]
  ∧ (upload_video envW 5 "videos/local1.mp4" none [] =
      (if envW.fileState (envW.uploadName "videos/local1.mp4") 2 =
          FileState.FAILED then
        .err .processingFailed []
          (Event.statCheck "videos/local1.mp4" ::
            Event.upload "videos/local1.mp4" ::
            pollTrace (envW.uploadName "videos/local1.mp4") 2)
      else
        .ok (uploadedObjOf envW "videos/local1.mp4" 2)
          (("videos/local1.mp4", uploadedObjOf envW "videos/local1.mp4" 2) :: [])
          (Event.statCheck "videos/local1.mp4" ::
            Event.upload "videos/local1.mp4" ::
            pollTrace (envW.uploadName "videos/local1.mp4") 2))
    ∧ (pollTrace (envW.uploadName "videos/local1.mp4") 2).countP
        isPollSleepEv = 2
    ∧ (∀ e ∈ pollTrace (envW.uploadName "videos/local1.mp4") 2,
        e = Event.pollSleep 2 ∨
          e = Event.filesGet (envW.uploadName "videos/local1.mp4"))) := by
  exact ⟨(c6_local_preparation envW 5 "videos/missing.mp4" none [] 0).1 rfl,
    (c6_local_preparation envW 5 "videos/local1.mp4" none [] 2).2 rfl rfl
      (by decide) (by decide) (by decide)⟩

theorem header_split (today : String) (j : Job)
    (hyt : truthy j.youtube_url = true) :
    _generate_metadata_header today j =
      ("# " ++ j.title.getD "Untitled" ++ "\n\n") ++
      ("**Section:** " ++ j.«section».getD "Unknown Section" ++ "\n") ++
      ("**Extracted:** " ++ today ++ "\n") ++
      ("**YouTube URL:** " ++ j.youtube_url.getD "") ++
      "\n\n---\n" := by
  unfold _generate_metadata_header
  simp only [hyt, if_true]
  apply String.ext
  simp only [String.data_append]
  simp [List.append_assoc]

theorem extract_content_events (env : Env) (cfg : Config) (obj : PreparedObj)
    (j : Job) (c : Cache) :
    (∃ t c2, extract_content env cfg obj j c = .ok t c2 [.generate obj.uri])
  ∨ (∃ e c2, extract_content env cfg obj j c = .err e c2 [.generate obj.uri]) := by
  unfold extract_content
  simp only []
  cases hg : env.generate (cfg.model.getD "gemini-1.5-pro") obj.uri
      (_build_extraction_prompt cfg j) <;> simp only [hg]
  · exact Or.inr ⟨_, _, rfl⟩
  · rename_i t
    by_cases ht : (t == "") = true
    · rw [if_pos ht]
      exact Or.inr ⟨_, _, rfl⟩
    · rw [if_neg ht]
      exact Or.inl ⟨_, _, rfl⟩

theorem save_markdown_events (env : Env) (content p : String) (j : Job)
    (c : Cache) :
    save_markdown env content p j c =
      .ok () c [.mkdirParents (parentDir p),
                .write p (full_doc env.today j content)]
  ∨ save_markdown env content p j c =
      .err .writeError c [.mkdirParents (parentDir p)] := by
  unfold save_markdown
  by_cases hw : env.writeOk p = true
  · rw [if_pos hw]
    exact Or.inl rfl
  · rw [if_neg hw]
    exact Or.inr rfl

/-- C9: a job carrying both a truthy remote URL and a truthy local path is
silently processed as a remote source: `process_video` raises nothing (the
outcome is a normal boolean), the run performs no local-file existence
check and no upload, and the document header's source line reports the
remote URL under the `YouTube URL` label. -/
theorem c9_remote_precedence (env : Env) (fuel : Nat) (cfg : Config)
    (j : Job) (c : Cache) (out : String)
    (hyt : truthy j.youtube_url = true) (hp : truthy j.path = true)
    (hout : j.output = some out) :
    (∃ b c' evs, process_video env fuel cfg j c = .ok b c' evs
       ∧ evs.countP isUploadEv = 0 ∧ evs.countP isStatCheckEv = 0)
  ∧ strContains (_generate_metadata_header env.today j)
      ("**YouTube URL:** " ++ j.youtube_url.getD "") := by
  constructor
  · unfold process_video
    simp only [hout]
    have hcond : (!truthy j.youtube_url && !truthy j.path) = false := by
      rw [hyt, hp]
      rfl
    simp only [hcond, Bool.false_eq_true, if_false, hyt, if_true]
    have hcond2 : (!true && !truthy j.path) = false := rfl
    obtain ⟨v, c1, hcv⟩ := create_youtube_ok c (j.youtube_url.getD "") j.title
    rcases extract_content_events env cfg v j c1 with ⟨t, c2, hx⟩ | ⟨e, c2, hx⟩
    · rcases save_markdown_events env t out j c2 with hsv | hsv
      · refine ⟨true, c2, [] ++ [Event.generate v.uri] ++
          [Event.mkdirParents (parentDir out),
           Event.write out (full_doc env.today j t)], ?_, ?_, ?_⟩
        · simp only [hcv, hx, hsv, hcond2, Bool.false_eq_true, if_false]
        · rfl
        · rfl
      · refine ⟨false, c2, [] ++ [Event.generate v.uri] ++
          [Event.mkdirParents (parentDir out)], ?_, ?_, ?_⟩
        · simp only [hcv, hx, hsv, hcond2, Bool.false_eq_true, if_false]
        · rfl
        · rfl
    · refine ⟨false, c2, [] ++ [Event.generate v.uri], ?_, ?_, ?_⟩
      · simp only [hcv, hx, hcond2, Bool.false_eq_true, if_false]
      · rfl
      · rfl
  · rw [header_split env.today j hyt]
    apply strContains_intro _ _
      (("# " ++ j.title.getD "Untitled" ++ "\n\n") ++
        ("**Section:** " ++ j.«section».getD "Unknown Section" ++ "\n") ++
        ("**Extracted:** " ++ env.today ++ "\n"))
      "\n\n---\n"
    simp [String.append_assoc]

set_option maxRecDepth 40000 in
/-- C9 witness: the job `jobBoth` (local path and remote URL both set)
under `envW`. -/
theorem c9_remote_precedence_witness :
    (∃ b c' evs, process_video envW 0 cfgW jobBoth [] = .ok b c' evs
       ∧ evs.countP isUploadEv = 0 ∧ evs.countP isStatCheckEv = 0)
  ∧ strContains (_generate_metadata_header envW.today jobBoth)
      ("**YouTube URL:** " ++ jobBoth.youtube_url.getD "") :=
  c9_remote_precedence envW 0 cfgW jobBoth [] "out/both.md" rfl rfl rfl

/-- C5: for a job with title `T`, section `S` and the remote URL
`https://youtu.be/abc123`, writing extracted text `BODY` produces (when
the filesystem write succeeds) exactly one `mkdir(parents=True)` of the
output path's parent followed by one write of header + blank line + body;
the document contains `T`, `S`, the URL and `BODY` (the first three inside
the header, which precedes the body); interpreting the trace against any
prior filesystem shows the write overwrites whatever was at the output
path and the parent directory was created. -/
theorem c5_document_roundtrip (env : Env) (T S BODY p : String) (j : Job)
    (c : Cache) (ht : j.title = some T) (hs : j.«section» = some S)
    (hu : j.youtube_url = some "https://youtu.be/abc123")
    (hw : env.writeOk p = true) :
    save_markdown env BODY p j c =
      .ok () c [.mkdirParents (parentDir p),
                .write p (full_doc env.today j BODY)]
  ∧ full_doc env.today j BODY =
      _generate_metadata_header env.today j ++ "\n\n" ++ BODY
  ∧ strContains (_generate_metadata_header env.today j) T
  ∧ strContains (_generate_metadata_header env.today j) S
  ∧ strContains (_generate_metadata_header env.today j) "https://youtu.be/abc123"
  ∧ strContains (full_doc env.today j BODY) BODY
  ∧ (∀ fs0 : String → Option String,
      applyWrites fs0 [Event.mkdirParents (parentDir p),
        Event.write p (full_doc env.today j BODY)] p =
          some (full_doc env.today j BODY))
  ∧ parentDir p ∈ applyDirs [] [Event.mkdirParents (parentDir p),
      Event.write p (full_doc env.today j BODY)] := by
  have hyt : truthy j.youtube_url = true := by
    rw [hu]
    rfl
  have hsplit := header_split env.today j hyt
  rw [ht, hs, hu] at hsplit
  simp only [Option.getD_some] at hsplit
  refine ⟨?_, rfl, ?_, ?_, ?_, ?_, ?_, ?_⟩
  · unfold save_markdown
    rw [if_pos hw]
  · rw [hsplit]
    apply strContains_intro _ _ "# "
      ("\n\n" ++
        ("**Section:** " ++ S ++ "\n") ++
        ("**Extracted:** " ++ env.today ++ "\n") ++
        ("**YouTube URL:** " ++ "https://youtu.be/abc123") ++
        "\n\n---\n")
    apply String.ext
    simp only [String.data_append]
    simp [List.append_assoc]
  · rw [hsplit]
    apply strContains_intro _ _
      (("# " ++ T ++ "\n\n") ++ "**Section:** ")
      ("\n" ++
        ("**Extracted:** " ++ env.today ++ "\n") ++
        ("**YouTube URL:** " ++ "https://youtu.be/abc123") ++
        "\n\n---\n")
    apply String.ext
    simp only [String.data_append]
    simp [List.append_assoc]
  · rw [hsplit]
    apply strContains_intro _ _
      (("# " ++ T ++ "\n\n") ++
        ("**Section:** " ++ S ++ "\n") ++
        ("**Extracted:** " ++ env.today ++ "\n") ++
        "**YouTube URL:** ")
      "\n\n---\n"
    apply String.ext
    simp only [String.data_append]
    simp [List.append_assoc]
  · apply strContains_intro_right _ _
      (_generate_metadata_header env.today j ++ "\n\n")
    apply String.ext
    simp only [full_doc, String.data_append]
  · intro fs0
    simp [applyWrites]
  · simp [applyDirs]

set_option maxRecDepth 40000 in
/-- C5 witness: the concrete job `jobT` with `title="T"`, `section="S"`,
`remote_url="https://youtu.be/abc123"` and body `"BODY"`. -/
theorem c5_document_roundtrip_witness :
    save_markdown envW "BODY" "docs/out.md" jobT [] =
      .ok () [] [.mkdirParents (parentDir "docs/out.md"),
                 .write "docs/out.md" (full_doc envW.today jobT "BODY")]
  ∧ full_doc envW.today jobT "BODY" =
      _generate_metadata_header envW.today jobT ++ "\n\n" ++ "BODY"
  ∧ strContains (_generate_metadata_header envW.today jobT) "T"
  ∧ strContains (_generate_metadata_header envW.today jobT) "S"
  ∧ strContains (_generate_metadata_header envW.today jobT)
      "https://youtu.be/abc123"
  ∧ strContains (full_doc envW.today jobT "BODY") "BODY"
  ∧ (∀ fs0 : String → Option String,
      applyWrites fs0 [Event.mkdirParents (parentDir "docs/out.md"),
        Event.write "docs/out.md" (full_doc envW.today jobT "BODY")]
          "docs/out.md" = some (full_doc envW.today jobT "BODY"))
  ∧ parentDir "docs/out.md" ∈
      applyDirs [] [Event.mkdirParents (parentDir "docs/out.md"),
        Event.write "docs/out.md" (full_doc envW.today jobT "BODY")] :=
  c5_document_roundtrip envW "T" "S" "BODY" "docs/out.md" jobT [] rfl rfl rfl rfl

end VideoExtractor
